import Mathlib

/-!
# Verification of the nautikus workflow orchestrator core

Shallow embedding of the Go sources of `kination/nautikus`:
`api/v1/dag_types.go`, `internal/scheduler/interface.go` (+ DefaultScheduler),
`internal/runner/runner.go`, `internal/executor/interface.go` (+ pod executor),
the executor registry, and `internal/controller/dag_controller.go`.

Kubernetes itself (pods, the object store) is abstracted as a `Cluster`
record of query results, so that one reconciliation tick is a pure function
of the fetched Dag, the scheduler state and the cluster observations.
Effects of a tick (pods created, statuses persisted) are returned in an
explicit effect log.
-/

namespace Nautikus

/-- `TaskState` from `api/v1/dag_types.go`: Pending/Running/Completed/Failed. -/
inductive TaskState where
  | pending
  | running
  | completed
  | failed
deriving DecidableEq, Repr

/-- The subset of `corev1.PodPhase` the code inspects (plus `unknown` for any
other phase, which every `switch`/`if` chain in the source treats by its
default branch). -/
inductive PodPhase where
  | pending
  | running
  | succeeded
  | failed
  | unknown
deriving DecidableEq, Repr

/-- `TaskSpec` from `api/v1/dag_types.go`.  `TaskType` is a Go string type, so
the `type` field is a `String` here ("Bash", "Python", "Go", or anything
else for unregistered kinds).  The Go `Env` map is embedded as an
association list of key/value pairs. -/
structure TaskSpec where
  name : String
  type : String
  dependencies : List String := []
  command : String := ""
  script : String := ""
  image : String := ""
  env : List (String × String) := []
deriving DecidableEq, Repr

/-- `TaskStatus` from `api/v1/dag_types.go`. -/
structure TaskStatus where
  name : String
  state : TaskState
  podName : String := ""
  message : String := ""
deriving DecidableEq, Repr

/-- `DagStatus` from `api/v1/dag_types.go`.  The Go `State` field is a string
that may be empty before the first reconciliation; `none` models the empty
string.  A Go nil slice and an empty slice of task statuses behave
identically in all the code modelled here, so `taskStatuses` is a plain
list. -/
structure DagStatus where
  state : Option TaskState := none
  taskStatuses : List TaskStatus := []
deriving DecidableEq, Repr

/-- The `Dag` custom resource (spec + status).  Only the metadata the core
reads (the name) is kept; the namespace is a fixed ambient value in every
call the code makes and is elided. -/
structure Dag where
  name : String
  spec : List TaskSpec := []
  status : DagStatus := {}
deriving DecidableEq, Repr

/-- Outcome of a `client.Get` for a pod: found with some phase, the
`IsNotFound` error, or any other error. -/
inductive GetResult where
  | found (phase : PodPhase)
  | notFound
  | errOther
deriving DecidableEq, Repr

/-- Outcome of a `client.Create` for a pod: success, the `IsAlreadyExists`
error, or any other error. -/
inductive CreateResult where
  | ok
  | alreadyExists
  | errOther
deriving DecidableEq, Repr

/-- The observable cluster a reconciliation tick runs against.
`registered` abstracts the executor registry contents (`Registry.Get`
succeeds iff the task type is registered; the registered executor is the
built-in pod executor, as wired by `SetupComponents`).  `execGet` gives the
result of the pod executor's own `client.Get`, `directGet` the result of
the reconciler's direct fallback `client.Get` (two separate calls, which a
transient failure can answer differently), `createResult` the result of
`client.Create` for a pod of a given name. -/
structure Cluster where
  registered : String → Bool
  execGet : String → GetResult
  directGet : String → GetResult
  createResult : String → CreateResult

/-! ## Scheduler (`internal/scheduler`) -/

/-- Scheduling `Policy` constants from `internal/scheduler/interface.go`. -/
inductive Policy where
  | fifo
  | priority
  | fairShare
deriving DecidableEq, Repr

/-- `SchedulerConfig` from `internal/scheduler/interface.go`. -/
structure SchedulerConfig where
  policy : Policy
  maxConcurrentDAGs : Int
  maxActiveTasks : Int
deriving DecidableEq, Repr

/-- `DefaultSchedulerConfig()`. -/
def defaultSchedulerConfig : SchedulerConfig :=
  { policy := .fifo, maxConcurrentDAGs := 100, maxActiveTasks := 10 }

/-- `TaskInfo` from `internal/scheduler/interface.go` (resources elided:
nothing in the default scheduler reads them). -/
structure TaskInfo where
  dagName : String
  taskName : String
  priority : Int := 0
deriving DecidableEq, Repr

/-- The mutable fields of `DefaultScheduler`: its config and the two
active-task counters.  The Go `activeTasksPerDAG` map with missing keys
defaulting to zero is a total function to `Nat`; `delete` of a zero entry
is invisible on this representation.  Both Go decrements are guarded by
`> 0`, which coincides with saturating `Nat` subtraction. -/
structure SchedulerState where
  config : SchedulerConfig
  activeTasksPerDAG : String → Nat
  totalActiveTasks : Nat

/-- `NewDefaultScheduler()`. -/
def newDefaultScheduler : SchedulerState :=
  { config := defaultSchedulerConfig, activeTasksPerDAG := fun _ => 0, totalActiveTasks := 0 }

/-- Last-wins lookup of a task status record by name: the Go code builds
`statusMap` by iterating the slice front to back, so a later record with
the same name overwrites an earlier one.  (`syncStatus` stores pointers,
`Schedule` stores states; both share this lookup discipline.) -/
def findL (n : String) : List TaskStatus → Option TaskStatus
  | [] => none
  | r :: rs =>
    match findL n rs with
    | some x => some x
    | none => if r.name = n then some r else none

/-- The state the Go `statusMap` in `DefaultScheduler.Schedule` associates to
a name (`none` when the name has no record, in Go the zero value `""`). -/
def statusMapLookup (sts : List TaskStatus) (n : String) : Option TaskState :=
  (findL n sts).map (fun r => r.state)

/-- `sortByPolicy` from `internal/scheduler`: every policy currently leaves
the candidate list untouched (FIFO by design, Priority and FairShare are
TODO stubs that return immediately). -/
def sortByPolicy (p : Policy) (candidates : List TaskSpec) : List TaskSpec :=
  match p with
  | .fifo => candidates
  | .priority => candidates
  | .fairShare => candidates

/-- `DefaultScheduler.Schedule`: build the status lookup, count active
(Pending/Running) records, filter candidate tasks (no record yet, all
dependencies Completed) in spec order, apply the policy sort, and cut to
the available slots; `availableSlots <= 0` returns the empty list.  The
error of the Go signature is the second component. -/
def schedule (s : SchedulerState) (d : Dag) : List TaskSpec × Option String :=
  let sts := d.status.taskStatuses
  let activeCount := (sts.filter (fun ts =>
    decide (ts.state = .running ∨ ts.state = .pending))).length
  let candidates := d.spec.filter (fun t =>
    (findL t.name sts).isNone &&
      t.dependencies.all (fun dep => decide (statusMapLookup sts dep = some .completed)))
  let sorted := sortByPolicy s.config.policy candidates
  let availableSlots : Int := s.config.maxActiveTasks - activeCount
  if availableSlots ≤ 0 then ([], none)
  else (sorted.take availableSlots.toNat, none)

/-- `DefaultScheduler.CanSchedule`: a point query on the total active-task
counter. -/
def canSchedule (s : SchedulerState) (_t : TaskInfo) : Bool × Option String :=
  if (s.totalActiveTasks : Int) ≥ s.config.maxActiveTasks then (false, none)
  else (true, none)

/-- `NotifyTaskStarted`: increments the per-DAG and total counters. -/
def notifyTaskStarted (s : SchedulerState) (dagName : String) (_taskName : String) :
    SchedulerState :=
  { s with
    activeTasksPerDAG := fun n =>
      if n = dagName then s.activeTasksPerDAG n + 1 else s.activeTasksPerDAG n,
    totalActiveTasks := s.totalActiveTasks + 1 }

/-- `NotifyTaskCompleted`: decrements both counters, never below zero, and
prunes the per-DAG entry at zero (invisible on the functional map). -/
def notifyTaskCompleted (s : SchedulerState) (dagName : String) (_taskName : String) :
    SchedulerState :=
  { s with
    activeTasksPerDAG := fun n =>
      if n = dagName then s.activeTasksPerDAG n - 1 else s.activeTasksPerDAG n,
    totalActiveTasks := s.totalActiveTasks - 1 }

/-! ## Built-in pod executor (`internal/executor`, package `pod`) -/

/-- `corev1.EnvVar` (name/value form only, as built by the executor). -/
structure EnvVar where
  name : String
  value : String
deriving DecidableEq, Repr

/-- The single container `buildPod` assembles. -/
structure ContainerSpec where
  name : String
  image : String
  command : List String
  args : List String
  env : List EnvVar
deriving DecidableEq, Repr

/-- The pod object `buildPod` assembles (restart policy is always Never; the
owner reference to the Dag is set unconditionally and elided here). -/
structure Pod where
  name : String
  labels : List (String × String)
  restartPolicyNever : Bool
  container : ContainerSpec
deriving DecidableEq, Repr

/-- `getPodName`: the deterministic execution-resource name `dag-task`. -/
def getPodName (dagName taskName : String) : String :=
  dagName ++ "-" ++ taskName

/-- A single-quote character, used by the Go-task shell fragment. -/
def squote : String := String.singleton (Char.ofNat 39)

/-- `getContainerSpec`: image, command and args per task type.  A custom
`task.Image` overrides the default image only; an unknown type falls out of
the Go `switch` with empty command and args. -/
def getContainerSpec (task : TaskSpec) : String × List String × List String :=
  if task.type = "Bash" then
    (if task.image = "" then "ubuntu:latest" else task.image,
      ["/bin/bash", "-c"], [task.command])
  else if task.type = "Python" then
    (if task.image = "" then "python:3.9-slim" else task.image,
      ["python", "-c"], [task.script])
  else if task.type = "Go" then
    (if task.image = "" then "golang:1.20-alpine" else task.image,
      ["/bin/sh", "-c"],
      ["echo " ++ squote ++ task.script ++ squote ++
        " > main.go && go mod init dag && go mod tidy && go run main.go"])
  else (task.image, [], [])

/-- `buildEnv`: converts the task env map to `EnvVar`s — nothing more.  (The
Go map iterates in unspecified order; the association-list embedding fixes
one order, and all theorems below only use membership.) -/
def buildEnv (envMap : List (String × String)) : List EnvVar :=
  envMap.map (fun kv => { name := kv.1, value := kv.2 })

/-- `buildPod`: the pod for (dag, task) — deterministic name, workflow/task
labels, restart policy Never, one `task-runner` container. -/
def buildPod (d : Dag) (t : TaskSpec) : Pod :=
  let cs := getContainerSpec t
  { name := getPodName d.name t.name,
    labels := [("dag", d.name), ("task", t.name),
      ("app.kubernetes.io/name", "nautikus"), ("app.kubernetes.io/part-of", "nautikus")],
    restartPolicyNever := true,
    container :=
      { name := "task-runner", image := cs.1, command := cs.2.1, args := cs.2.2,
        env := buildEnv t.env } }

/-- `pod.Executor.Execute`: create the pod; `IsAlreadyExists` is success,
any other create failure is an error.  The second component is the effect
log of pods actually created.  (`SetControllerReference` is modelled as
always succeeding: with the deployed scheme it only fails on unregistered
types.) -/
def podExecute (c : Cluster) (d : Dag) (t : TaskSpec) : Except String Unit × List String :=
  let p := buildPod d t
  match c.createResult p.name with
  | .ok => (.ok (), [p.name])
  | .alreadyExists => (.ok (), [])
  | .errOther => (.error "failed to create pod", [])

/-- `pod.Executor.GetStatus`: look the pod up by its deterministic name;
not-found is Pending, Succeeded/Failed/Running map to
Completed/Failed/Running, any other phase is Pending; a non-not-found read
error is returned as an error. -/
def podGetStatus (c : Cluster) (dagName : String) (t : TaskSpec) : Except String TaskState :=
  match c.execGet (getPodName dagName t.name) with
  | .errOther => .error "pod get error"
  | .notFound => .ok .pending
  | .found .succeeded => .ok .completed
  | .found .failed => .ok .failed
  | .found .running => .ok .running
  | .found _ => .ok .pending

/-! ## Runner (`internal/runner/runner.go`) -/

/-- `RunResult` from the runner package. -/
structure RunResult where
  taskName : String
  podName : String
  state : TaskState
  message : String
deriving DecidableEq, Repr

/-- `DefaultRunner.Run`: look the executor up by task type (an unregistered
type is an error before anything is created), execute, and report an
initial Pending state on success.  On an execute error Go returns both a
Failed `RunResult` and the error; the reconciler only consults the error,
so the `Except` carries it. -/
def runnerRun (c : Cluster) (d : Dag) (t : TaskSpec) : Except String RunResult × List String :=
  if c.registered t.type then
    match podExecute c d t with
    | (.ok _, created) =>
      (.ok { taskName := t.name, podName := getPodName d.name t.name,
             state := .pending, message := "Task started" }, created)
    | (.error e, created) => (.error e, created)
  else (.error ("no executor found for task type " ++ t.type), [])

/-- `DefaultRunner.GetStatus`: registry lookup then the executor's
`GetStatus`. -/
def runnerGetStatus (c : Cluster) (dagName : String) (t : TaskSpec) : Except String TaskState :=
  if c.registered t.type then podGetStatus c dagName t
  else .error ("no executor found for task type " ++ t.type)

/-! ## Reconciler (`internal/controller/dag_controller.go`) -/

/-- The accumulator threaded through `syncStatus`'s loop over the spec
tasks: the task records (mutated through the `statusMap` pointers), the
aggregate state, and the scheduler (receiving completion notifications). -/
structure SyncAcc where
  sts : List TaskStatus
  st : Option TaskState
  sch : SchedulerState

/-- Overwrite a record's state (what `currentStatus.State = …` does). -/
def setState (s : TaskState) (r : TaskStatus) : TaskStatus :=
  { r with state := s }

/-- Update the record the `syncStatus` status map points at: the last record
carrying the given name (later map insertions overwrite earlier ones). -/
def updLast (n : String) (f : TaskStatus → TaskStatus) : List TaskStatus → List TaskStatus
  | [] => []
  | r :: rs =>
    match findL n rs with
    | some _ => r :: updLast n f rs
    | none => if r.name = n then f r :: rs else r :: rs

/-- One iteration of the `syncStatus` loop body for spec task `t`: skip
tasks without a record or already terminal; otherwise ask the runner for
the task state; on an observation error fall back to a direct pod read by
the recorded pod name (not-found is no change, Succeeded/Failed map with a
completion notification and Failed also fails the workflow, anything else
is recorded Running); on success record a changed state, notify on a
Pending/Running → Completed/Failed transition, and fail the workflow on
Failed.  The `Option String` is the early-return error of the fallback
read. -/
def syncTask (c : Cluster) (dagName : String) (t : TaskSpec) (a : SyncAcc) :
    SyncAcc × Option String :=
  match findL t.name a.sts with
  | none => (a, none)
  | some cur =>
    if cur.state = .completed ∨ cur.state = .failed then (a, none)
    else
      match runnerGetStatus c dagName t with
      | .error _ =>
        match c.directGet cur.podName with
        | .errOther => (a, some "get pod failed")
        | .notFound => (a, none)
        | .found .succeeded =>
          ({ sts := updLast t.name (setState .completed) a.sts, st := a.st,
             sch := notifyTaskCompleted a.sch dagName t.name }, none)
        | .found .failed =>
          ({ sts := updLast t.name (setState .failed) a.sts, st := some .failed,
             sch := notifyTaskCompleted a.sch dagName t.name }, none)
        | .found _ =>
          ({ a with sts := updLast t.name (setState .running) a.sts }, none)
      | .ok st =>
        if cur.state = st then (a, none)
        else
          ({ sts := updLast t.name (setState st) a.sts,
             st := if st = .failed then some .failed else a.st,
             sch :=
               if (st = .completed ∨ st = .failed) ∧
                   (cur.state = .running ∨ cur.state = .pending) then
                 notifyTaskCompleted a.sch dagName t.name
               else a.sch }, none)

/-- The `syncStatus` loop over the spec tasks, stopping at the first
error (Go `return err`) but keeping the mutations already made. -/
def syncLoop (c : Cluster) (dagName : String) :
    List TaskSpec → SyncAcc → SyncAcc × Option String
  | [], a => (a, none)
  | t :: rest, a =>
    match syncTask c dagName t a with
    | (a', none) => syncLoop c dagName rest a'
    | (a', some e) => (a', some e)

/-- The accumulator `syncStatus` starts from: the current records, the
aggregate state with an empty value initialised to Running (and a nil
record slice initialised to empty — the identity here), and the scheduler. -/
def syncAcc0 (s : SchedulerState) (d : Dag) : SyncAcc :=
  { sts := d.status.taskStatuses,
    st := if d.status.state = none then some TaskState.running else d.status.state,
    sch := s }

/-- `syncStatus`: initialisation then the observation loop. -/
def syncStatus (c : Cluster) (s : SchedulerState) (d : Dag) :
    Dag × SchedulerState × Option String :=
  let r := syncLoop c d.name d.spec (syncAcc0 s d)
  ({ d with status := { state := r.1.st, taskStatuses := r.1.sts } }, r.1.sch, r.2)

/-- `updateDAGState`: never touches a Failed aggregate; sets Completed when
every record is Completed and every spec task has a record. -/
def updateDAGState (d : Dag) : Dag :=
  if d.status.state = some .failed then d
  else if (∀ ts ∈ d.status.taskStatuses, ts.state = .completed) ∧
      d.status.taskStatuses.length = d.spec.length then
    { d with status := { d.status with state := some .completed } }
  else d

/-- What one reconciliation returns, together with its effect log: the
in-memory dag and scheduler at exit, the error handed to the framework, the
requeue request, the pods created, and every status the tick persisted via
`Status().Update` (persistence itself is modelled as always succeeding;
optimistic-concurrency conflicts are an environment failure outside these
claims). -/
structure ReconcileOut where
  dag : Dag
  sched : SchedulerState
  err : Option String := none
  requeue : Bool := false
  created : List String := []
  persists : List DagStatus := []

/-- Update the first record with the given name (the Go
`for i := range … { if Name == task.Name { …; break } }` loops). -/
def updFirst (n : String) (f : TaskStatus → TaskStatus) : List TaskStatus → List TaskStatus
  | [] => []
  | r :: rs => if r.name = n then f r :: rs else r :: updFirst n f rs

/-- The launch loop of `Reconcile` (steps 6–9): for each scheduled task
append a Pending record named `dag-task`, notify the scheduler, run the
task; on a launch error mark the record Failed with the error message, fail
the workflow, notify completion, persist, and return the error; after the
loop recompute the aggregate, persist, and requeue iff still Running. -/
def launchLoop (c : Cluster) : List TaskSpec → Dag → SchedulerState → List String → ReconcileOut
  | [], d, s, created =>
    let d₂ := updateDAGState d
    { dag := d₂, sched := s, err := none,
      requeue := d₂.status.state = some .running,
      created := created, persists := [d₂.status] }
  | t :: rest, d, s, created =>
    let newRec : TaskStatus :=
      { name := t.name, state := .pending,
        podName := getPodName d.name t.name, message := "" }
    let sts₁ := d.status.taskStatuses ++ [newRec]
    let d₁ := { d with status := { d.status with taskStatuses := sts₁ } }
    let s₁ := notifyTaskStarted s d.name t.name
    match runnerRun c d₁ t with
    | (.ok res, cr) =>
      let sts₂ := updFirst t.name
        (fun r => { r with state := res.state, podName := res.podName, message := res.message })
        sts₁
      let d₂ := { d₁ with status := { d₁.status with taskStatuses := sts₂ } }
      launchLoop c rest d₂ s₁ (created ++ cr)
    | (.error e, cr) =>
      let sts₂ := updFirst t.name
        (fun r => { r with state := .failed, message := e }) sts₁
      let d₂ := { d₁ with status := { state := some .failed, taskStatuses := sts₂ } }
      { dag := d₂, sched := notifyTaskCompleted s₁ d.name t.name, err := some e,
        requeue := false, created := created ++ cr, persists := [d₂.status] }

/-- `Reconcile` for an existing Dag (the not-found and fetch-error exits
precede everything modelled here): sync status, short-circuit on a terminal
aggregate (returning WITHOUT persisting — the Go code returns directly),
schedule, and launch. -/
def reconcile (c : Cluster) (s : SchedulerState) (d : Dag) : ReconcileOut :=
  let sync := syncStatus c s d
  match sync.2.2 with
  | some e => { dag := sync.1, sched := sync.2.1, err := some e }
  | none =>
    if sync.1.status.state = some .completed ∨ sync.1.status.state = some .failed then
      { dag := sync.1, sched := sync.2.1 }
    else
      match (schedule sync.2.1 sync.1).2 with
      | some e => { dag := sync.1, sched := sync.2.1, err := some e }
      | none => launchLoop c (schedule sync.2.1 sync.1).1 sync.1 sync.2.1 []

/-! ## Spec-side restatement of the scheduling algorithm (for C3)

These definitions follow the wording of the specification (§4.4), to be
compared against `schedule`, which is embedded from the source. -/

/-- Spec wording: a *candidate* has no status record yet and every name in
its dependencies is present in the lookup with state Completed; candidates
keep the spec's declared task order. -/
def specCandidates (d : Dag) : List TaskSpec :=
  d.spec.filter (fun t =>
    decide ((statusMapLookup d.status.taskStatuses t.name).isNone = true ∧
      ∀ dep ∈ t.dependencies,
        statusMapLookup d.status.taskStatuses dep = some .completed))

/-- Spec wording: `activeCount` is the number of status records in state
Pending or Running. -/
def specActiveCount (d : Dag) : Nat :=
  d.status.taskStatuses.countP (fun ts => decide (ts.state = .pending ∨ ts.state = .running))

/-- Spec wording: `slots = maxActiveTasks − activeCount`. -/
def specSlots (s : SchedulerState) (d : Dag) : Int :=
  s.config.maxActiveTasks - specActiveCount d

/-! ## Notification sequences (for C8) -/

/-- A call to one of the scheduler's two notification entry points. -/
inductive NotifyOp where
  | started (dagName taskName : String)
  | completed (dagName taskName : String)

/-- Apply one notification to the scheduler state. -/
def applyNotify (s : SchedulerState) : NotifyOp → SchedulerState
  | .started dn tn => notifyTaskStarted s dn tn
  | .completed dn tn => notifyTaskCompleted s dn tn

/-- Apply a sequence of notifications in order. -/
def applyNotifies (s : SchedulerState) (ops : List NotifyOp) : SchedulerState :=
  ops.foldl applyNotify s

/-! ## Per-record transition relation (for C5) -/

/-- How one reconciliation may rewrite a pre-existing status record:
the name never changes, and a record already in a terminal state
(Completed or Failed) is never modified at all. -/
def recordStep (b a : TaskStatus) : Prop :=
  a.name = b.name ∧ (b.state = .completed → a = b) ∧ (b.state = .failed → a = b)

/-! ## Concrete instances used by witnesses and counterexamples -/

/-- A cluster with an empty executor registry (and no pods). -/
def clusterC1 : Cluster :=
  { registered := fun _ => false, execGet := fun _ => .notFound,
    directGet := fun _ => .notFound, createResult := fun _ => .ok }

/-- A task of an unregistered kind. -/
def taskC1 : TaskSpec := { name := "a", type := "BogusKind" }

/-- A fresh workflow declaring only the bogus task. -/
def dagC1 : Dag := { name := "w", spec := [taskC1] }

/-- `dagC1` after the observation step of its first tick: aggregate
initialised to Running, still no records. -/
def dagC1s : Dag :=
  { name := "w", spec := [taskC1],
    status := { state := some .running, taskStatuses := [] } }

/-- A cluster whose pod `w-a` has failed. -/
def clusterC2 : Cluster :=
  { registered := fun ty => ty = "Bash", execGet := fun _ => .found .failed,
    directGet := fun _ => .notFound, createResult := fun _ => .ok }

/-- A running workflow whose only task `a` is recorded Running. -/
def dagC2 : Dag :=
  { name := "w", spec := [{ name := "a", type := "Bash", command := "true" }],
    status := { state := some .running,
                taskStatuses := [{ name := "a", state := .running, podName := "w-a" }] } }

/-- A cluster with no pods at all (the pod of a Running task vanished). -/
def clusterC5 : Cluster :=
  { registered := fun ty => ty = "Bash", execGet := fun _ => .notFound,
    directGet := fun _ => .notFound, createResult := fun _ => .ok }

/-- A running workflow whose only task `a` is recorded Running (its pod has
been deleted out from under it). -/
def dagC5 : Dag :=
  { name := "w", spec := [{ name := "a", type := "Bash", command := "true" }],
    status := { state := some .running,
                taskStatuses := [{ name := "a", state := .running, podName := "w-a" }] } }

/-- A cluster on which creating any pod reports that it already exists. -/
def clusterC6 : Cluster :=
  { registered := fun ty => ty = "Bash", execGet := fun _ => .notFound,
    directGet := fun _ => .notFound, createResult := fun _ => .alreadyExists }

def dagC6 : Dag := { name := "w", spec := [{ name := "a", type := "Bash", command := "true" }] }

def taskC6 : TaskSpec := { name := "a", type := "Bash", command := "true" }

def dagC7 : Dag := { name := "w", spec := [{ name := "a", type := "Bash", command := "true" }] }

/-- A task with no user-supplied env entries. -/
def taskC7 : TaskSpec := { name := "a", type := "Bash", command := "true" }

/-- An already-failed workflow (for the C4 witness). -/
def dagC4 : Dag :=
  { name := "w", spec := [{ name := "a", type := "Bash", command := "true" }],
    status := { state := some .failed,
                taskStatuses := [{ name := "a", state := .failed, podName := "w-a" }] } }

def clusterC4 : Cluster :=
  { registered := fun ty => ty = "Bash", execGet := fun _ => .found .running,
    directGet := fun _ => .found .running, createResult := fun _ => .ok }

/-- A cluster whose registry is empty but whose pod `w-a` is Pending
(observation must use the fallback path). -/
def clusterC10a : Cluster :=
  { registered := fun _ => false, execGet := fun _ => .notFound,
    directGet := fun _ => .found .pending, createResult := fun _ => .ok }

/-- A cluster with the Bash executor registered and no pod `w-a`. -/
def clusterC10b : Cluster :=
  { registered := fun ty => ty = "Bash", execGet := fun _ => .notFound,
    directGet := fun _ => .notFound, createResult := fun _ => .ok }

def taskC10 : TaskSpec := { name := "a", type := "Bash", command := "true" }

def accC10a : SyncAcc :=
  { sts := [{ name := "a", state := .pending, podName := "w-a" }],
    st := some .running, sch := newDefaultScheduler }

def accC10b : SyncAcc :=
  { sts := [{ name := "a", state := .running, podName := "w-a" }],
    st := some .running, sch := newDefaultScheduler }

/-! ## Helper lemmas -/

/-- Every policy's sort is the identity in the source. -/
lemma sortByPolicy_eq (p : Policy) (l : List TaskSpec) : sortByPolicy p l = l := by
  cases p <;> rfl

lemma specCandidates_eq (d : Dag) :
    (d.spec.filter (fun t =>
      (findL t.name d.status.taskStatuses).isNone &&
        t.dependencies.all (fun dep =>
          decide (statusMapLookup d.status.taskStatuses dep = some .completed)))) =
    specCandidates d := by
  unfold specCandidates
  apply List.filter_congr
  intro t _
  apply Bool.eq_iff_iff.mpr
  simp [statusMapLookup, List.all_eq_true]

lemma specActiveCount_eq (d : Dag) :
    (d.status.taskStatuses.filter (fun ts =>
      decide (ts.state = .running ∨ ts.state = .pending))).length = specActiveCount d := by
  unfold specActiveCount
  rw [List.countP_eq_length_filter]
  apply congrArg
  apply List.filter_congr
  intro ts _
  exact decide_eq_decide.mpr or_comm

/-- The error component of `Schedule` is nil at both return sites. -/
lemma schedule_snd (s : SchedulerState) (d : Dag) : (schedule s d).2 = none := by
  unfold schedule
  dsimp only
  split <;> rfl

/-- The error component of `CanSchedule` is nil at both return sites. -/
lemma canSchedule_snd (s : SchedulerState) (t : TaskInfo) : (canSchedule s t).2 = none := by
  unfold canSchedule
  split <;> rfl

lemma applyNotify_config (s : SchedulerState) (op : NotifyOp) :
    (applyNotify s op).config = s.config := by
  cases op <;> rfl

lemma applyNotifies_config (s : SchedulerState) (ops : List NotifyOp) :
    (applyNotifies s ops).config = s.config := by
  induction ops generalizing s with
  | nil => rfl
  | cons op rest ih => simpa [applyNotifies, List.foldl_cons, applyNotify_config] using
      (ih (applyNotify s op)).trans (applyNotify_config s op)

lemma schedule_congr_config (s₁ s₂ : SchedulerState) (d : Dag)
    (h : s₁.config = s₂.config) : schedule s₁ d = schedule s₂ d := by
  cases s₁; cases s₂
  simp only at h
  subst h
  rfl

lemma buildPod_name (d : Dag) (t : TaskSpec) :
    (buildPod d t).name = getPodName d.name t.name := rfl

lemma setState_name (s : TaskState) (r : TaskStatus) : (setState s r).name = r.name := rfl

lemma setState_eq_self (s : TaskState) (r : TaskStatus) (h : r.state = s) :
    setState s r = r := by
  cases r
  cases h
  rfl

/-- The record `findL` returns is a member of the list. -/
lemma findL_mem (n : String) : ∀ (l : List TaskStatus) (x : TaskStatus),
    findL n l = some x → x ∈ l := by
  intro l
  induction l with
  | nil => intro x h; simp [findL] at h
  | cons r rs ih =>
    intro x h
    rcases hrs : findL n rs with _ | y
    · simp only [findL, hrs] at h
      by_cases hr : r.name = n
      · rw [if_pos hr] at h
        injection h with h
        subst h
        exact List.mem_cons_self r rs
      · rw [if_neg hr] at h
        cases h
    · simp only [findL, hrs, Option.some.injEq] at h
      subst h
      exact List.mem_cons_of_mem r (ih y hrs)

/-- If `findL` misses, no record in the list carries the name. -/
lemma findL_none (n : String) : ∀ (l : List TaskStatus),
    findL n l = none → ∀ r ∈ l, r.name ≠ n := by
  intro l
  induction l with
  | nil => intro _ r hr; cases hr
  | cons r rs ih =>
    intro h x hx
    rcases hrs : findL n rs with _ | y
    · simp only [findL, hrs] at h
      by_cases hr : r.name = n
      · rw [if_pos hr] at h
        cases h
      · rcases List.mem_cons.mp hx with hxr | hxrs
        · subst hxr; exact hr
        · exact ih hrs x hxrs
    · simp only [findL, hrs] at h
      cases h

/-- `updLast` rewrites exactly the record `findL` points at. -/
lemma findL_updLast (n : String) (f : TaskStatus → TaskStatus)
    (hf : ∀ r, (f r).name = r.name) :
    ∀ (l : List TaskStatus) (cur : TaskStatus), findL n l = some cur →
      findL n (updLast n f l) = some (f cur) := by
  intro l
  induction l with
  | nil => intro cur h; simp [findL] at h
  | cons r rs ih =>
    intro cur h
    rcases hrs : findL n rs with _ | x
    · simp only [findL, hrs] at h
      by_cases hr : r.name = n
      · rw [if_pos hr] at h
        injection h with hrc
        subst hrc
        simp only [updLast, hrs, if_pos hr, findL]
        rw [if_pos ((hf r).trans hr)]
      · rw [if_neg hr] at h
        cases h
    · simp only [findL, hrs, Option.some.injEq] at h
      subst h
      simp only [updLast, hrs, findL]
      rw [ih x hrs]

lemma recordStep_refl (r : TaskStatus) : recordStep r r :=
  ⟨rfl, fun _ => rfl, fun _ => rfl⟩

lemma recordStep_trans {x y z : TaskStatus} (h₁ : recordStep x y) (h₂ : recordStep y z) :
    recordStep x z := by
  obtain ⟨hn1, hc1, hf1⟩ := h₁
  obtain ⟨hn2, hc2, hf2⟩ := h₂
  refine ⟨hn2.trans hn1, ?_, ?_⟩
  · intro hx
    have hyx := hc1 hx
    rw [hc2 (by rw [hyx]; exact hx), hyx]
  · intro hx
    have hyx := hf1 hx
    rw [hf2 (by rw [hyx]; exact hx), hyx]

lemma forall₂_recordStep_refl (l : List TaskStatus) : List.Forall₂ recordStep l l :=
  List.forall₂_same.mpr (fun x _ => recordStep_refl x)

lemma forall₂_recordStep_trans : ∀ {l₁ l₂ l₃ : List TaskStatus},
    List.Forall₂ recordStep l₁ l₂ → List.Forall₂ recordStep l₂ l₃ →
    List.Forall₂ recordStep l₁ l₃ := by
  intro l₁ l₂ l₃ h₁
  induction h₁ generalizing l₃ with
  | nil => intro h₂; cases h₂; exact .nil
  | cons hr _ ih =>
    intro h₂
    cases h₂ with
    | cons hr₂ hrest₂ => exact .cons (recordStep_trans hr hr₂) (ih hrest₂)

/-- Updating the non-terminal record `findL` points at is a `recordStep` on
every position. -/
lemma updLast_recordStep (n : String) (st' : TaskState) :
    ∀ (l : List TaskStatus) (cur : TaskStatus), findL n l = some cur →
      cur.state ≠ .completed → cur.state ≠ .failed →
      List.Forall₂ recordStep l (updLast n (setState st') l) := by
  intro l
  induction l with
  | nil => intro cur h; simp [findL] at h
  | cons r rs ih =>
    intro cur h hnc hnf
    rcases hrs : findL n rs with _ | x
    · simp only [findL, hrs] at h
      by_cases hr : r.name = n
      · rw [if_pos hr] at h
        injection h with hrc
        subst hrc
        simp only [updLast, hrs, if_pos hr]
        exact .cons ⟨rfl, fun hcc => absurd hcc hnc, fun hff => absurd hff hnf⟩
          (forall₂_recordStep_refl rs)
      · rw [if_neg hr] at h
        cases h
    · simp only [findL, hrs, Option.some.injEq] at h
      subst h
      simp only [updLast, hrs]
      exact .cons (recordStep_refl r) (ih x hrs hnc hnf)

/-- One `syncStatus` iteration is a `recordStep` on every record. -/
lemma syncTask_recordStep (c : Cluster) (dagName : String) (t : TaskSpec) (a : SyncAcc) :
    List.Forall₂ recordStep a.sts ((syncTask c dagName t a).1).sts := by
  rcases hf : findL t.name a.sts with _ | cur
  · simp only [syncTask, hf]
    exact forall₂_recordStep_refl _
  · by_cases ht : cur.state = .completed ∨ cur.state = .failed
    · simp only [syncTask, hf, if_pos ht]
      exact forall₂_recordStep_refl _
    · have hnc : cur.state ≠ .completed := fun hh => ht (Or.inl hh)
      have hnf : cur.state ≠ .failed := fun hh => ht (Or.inr hh)
      cases hr : runnerGetStatus c dagName t with
      | error e =>
        cases hd : c.directGet cur.podName with
        | errOther =>
          simp only [syncTask, hf, if_neg ht, hr, hd]
          exact forall₂_recordStep_refl _
        | notFound =>
          simp only [syncTask, hf, if_neg ht, hr, hd]
          exact forall₂_recordStep_refl _
        | found p =>
          cases p <;> simp only [syncTask, hf, if_neg ht, hr, hd] <;>
            exact updLast_recordStep _ _ _ cur hf hnc hnf
      | ok st =>
        by_cases hcs : cur.state = st
        · simp only [syncTask, hf, if_neg ht, hr, if_pos hcs]
          exact forall₂_recordStep_refl _
        · simp only [syncTask, hf, if_neg ht, hr, if_neg hcs]
          exact updLast_recordStep _ _ _ cur hf hnc hnf

/-- The whole observation loop is a `recordStep` on every record. -/
lemma syncLoop_recordStep (c : Cluster) (dagName : String) :
    ∀ (tasks : List TaskSpec) (a : SyncAcc),
      List.Forall₂ recordStep a.sts (((syncLoop c dagName tasks a).1).sts) := by
  intro tasks
  induction tasks with
  | nil => intro a; exact forall₂_recordStep_refl _
  | cons t rest ih =>
    intro a
    have hstep := syncTask_recordStep c dagName t a
    rcases hs : syncTask c dagName t a with ⟨a', e⟩
    rw [hs] at hstep
    cases e with
    | none =>
      simp only [syncLoop, hs]
      exact forall₂_recordStep_trans hstep (ih a')
    | some e =>
      simp only [syncLoop, hs]
      exact hstep

/-- A Failed aggregate survives one observation iteration. -/
lemma syncTask_st_failed (c : Cluster) (dagName : String) (t : TaskSpec) (a : SyncAcc)
    (h : a.st = some .failed) : ((syncTask c dagName t a).1).st = some .failed := by
  rcases hf : findL t.name a.sts with _ | cur
  · simp only [syncTask, hf]; exact h
  · by_cases ht : cur.state = .completed ∨ cur.state = .failed
    · simp only [syncTask, hf, if_pos ht]; exact h
    · cases hr : runnerGetStatus c dagName t with
      | error e =>
        cases hd : c.directGet cur.podName with
        | errOther => simp only [syncTask, hf, if_neg ht, hr, hd]; exact h
        | notFound => simp only [syncTask, hf, if_neg ht, hr, hd]; exact h
        | found p => cases p <;> simp only [syncTask, hf, if_neg ht, hr, hd] <;> exact h
      | ok st =>
        by_cases hcs : cur.state = st
        · simp only [syncTask, hf, if_neg ht, hr, if_pos hcs]; exact h
        · simp only [syncTask, hf, if_neg ht, hr, if_neg hcs]
          by_cases hsf : st = .failed
          · simp [hsf]
          · simp [hsf, h]

/-- A Failed aggregate survives the whole observation loop. -/
lemma syncLoop_st_failed (c : Cluster) (dagName : String) :
    ∀ (tasks : List TaskSpec) (a : SyncAcc), a.st = some .failed →
      (((syncLoop c dagName tasks a).1).st = some .failed) := by
  intro tasks
  induction tasks with
  | nil => intro a h; exact h
  | cons t rest ih =>
    intro a h
    have hstep := syncTask_st_failed c dagName t a h
    rcases hs : syncTask c dagName t a with ⟨a', e⟩
    rw [hs] at hstep
    cases e with
    | none => simp only [syncLoop, hs]; exact ih a' hstep
    | some e => simp only [syncLoop, hs]; exact hstep

/-- When every record is Completed, an observation iteration does nothing. -/
lemma syncTask_skip (c : Cluster) (dagName : String) (t : TaskSpec) (a : SyncAcc)
    (h : ∀ r ∈ a.sts, r.state = .completed) : syncTask c dagName t a = (a, none) := by
  rcases hf : findL t.name a.sts with _ | cur
  · simp only [syncTask, hf]
  · have hc := h cur (findL_mem t.name a.sts cur hf)
    simp only [syncTask, hf, if_pos (Or.inl hc)]

/-- When every record is Completed, the whole observation loop does
nothing. -/
lemma syncLoop_skip (c : Cluster) (dagName : String) :
    ∀ (tasks : List TaskSpec) (a : SyncAcc), (∀ r ∈ a.sts, r.state = .completed) →
      syncLoop c dagName tasks a = (a, none) := by
  intro tasks
  induction tasks with
  | nil => intro a _; rfl
  | cons t rest ih =>
    intro a h
    simp only [syncLoop, syncTask_skip c dagName t a h]
    exact ih a h

/-- `updateDAGState` leaves the records untouched. -/
lemma updateDAGState_sts (d : Dag) :
    (updateDAGState d).status.taskStatuses = d.status.taskStatuses := by
  unfold updateDAGState
  split
  · rfl
  · split <;> rfl

/-- `updFirst` skips a prefix that carries no record of the name. -/
lemma updFirst_append (n : String) (f : TaskStatus → TaskStatus) :
    ∀ (l₁ l₂ : List TaskStatus), (∀ r ∈ l₁, r.name ≠ n) →
      updFirst n f (l₁ ++ l₂) = l₁ ++ updFirst n f l₂ := by
  intro l₁ l₂ h
  induction l₁ with
  | nil => rfl
  | cons r rs ih =>
    have hr : r.name ≠ n := h r (List.mem_cons_self r rs)
    simp only [List.cons_append, updFirst, if_neg hr]
    show r :: updFirst n f (rs ++ l₂) = r :: (rs ++ updFirst n f l₂)
    rw [ih (fun x hx => h x (List.mem_cons_of_mem r hx))]

/-- The launch loop only appends to (or rewrites records it appended after)
the records it was given, provided none of the launched tasks carries the
name of a pre-existing record — which `Schedule` guarantees. -/
lemma launchLoop_statuses_prefix (c : Cluster) :
    ∀ (tasks : List TaskSpec) (d : Dag) (s : SchedulerState) (created : List String)
      (orig extra : List TaskStatus),
      d.status.taskStatuses = orig ++ extra →
      (∀ t ∈ tasks, ∀ r ∈ orig, r.name ≠ t.name) →
      ∃ extra₂, (launchLoop c tasks d s created).dag.status.taskStatuses = orig ++ extra₂ := by
  intro tasks
  induction tasks with
  | nil =>
    intro d s created orig extra hsts _
    refine ⟨extra, ?_⟩
    simp only [launchLoop]
    rw [updateDAGState_sts, hsts]
  | cons t rest ih =>
    intro d s created orig extra hsts hnames
    have hor : ∀ r ∈ orig, r.name ≠ t.name :=
      hnames t (List.mem_cons_self t rest)
    have hnew : d.status.taskStatuses ++
        [{ name := t.name, state := .pending,
           podName := getPodName d.name t.name, message := "" }] =
        orig ++ (extra ++
          [{ name := t.name, state := .pending,
             podName := getPodName d.name t.name, message := "" }]) := by
      rw [hsts, List.append_assoc]
    have key : ∀ (f : TaskStatus → TaskStatus),
        updFirst t.name f (d.status.taskStatuses ++
          [{ name := t.name, state := .pending,
             podName := getPodName d.name t.name, message := "" }]) =
        orig ++ updFirst t.name f (extra ++
          [{ name := t.name, state := .pending,
             podName := getPodName d.name t.name, message := "" }]) := by
      intro f
      rw [hnew]
      exact updFirst_append t.name f orig _ hor
    simp only [launchLoop]
    rcases hr : runnerRun c
        { d with status := { d.status with taskStatuses :=
            d.status.taskStatuses ++
              [{ name := t.name, state := .pending,
                 podName := getPodName d.name t.name, message := "" }] } } t with ⟨rr, cr⟩
    cases rr with
    | ok res =>
      simp only [hr]
      exact ih _ _ _ orig _ (key _)
        (fun t' ht' r hrr => hnames t' (List.mem_cons_of_mem t ht') r hrr)
    | error e =>
      simp only [hr]
      exact ⟨_, key _⟩

/-- Every task `Schedule` returns has no status record yet. -/
lemma schedule_mem_no_record (s : SchedulerState) (d : Dag) :
    ∀ t ∈ (schedule s d).1, findL t.name d.status.taskStatuses = none := by
  intro t ht
  simp only [schedule] at ht
  split at ht
  · cases ht
  · rw [sortByPolicy_eq] at ht
    have hmem := List.take_subset _ _ ht
    have hp := (List.mem_filter.mp hmem).2
    have := (Bool.and_eq_true _ _).mp hp
    exact Option.isNone_iff_eq_none.mp this.1

/-- Projections of `syncStatus` (all definitional). -/
lemma syncStatus_fst_state (c : Cluster) (s : SchedulerState) (d : Dag) :
    (syncStatus c s d).1.status.state =
      ((syncLoop c d.name d.spec (syncAcc0 s d)).1).st := rfl

lemma syncStatus_fst_sts (c : Cluster) (s : SchedulerState) (d : Dag) :
    (syncStatus c s d).1.status.taskStatuses =
      ((syncLoop c d.name d.spec (syncAcc0 s d)).1).sts := rfl

lemma syncStatus_snd_err (c : Cluster) (s : SchedulerState) (d : Dag) :
    (syncStatus c s d).2.2 = (syncLoop c d.name d.spec (syncAcc0 s d)).2 := rfl

/-- `Reconcile` when the observation step errors. -/
lemma reconcile_eq_err (c : Cluster) (s : SchedulerState) (d : Dag) (e : String)
    (he : (syncStatus c s d).2.2 = some e) :
    reconcile c s d =
      { dag := (syncStatus c s d).1, sched := (syncStatus c s d).2.1, err := some e } := by
  simp only [reconcile, he]

/-- `Reconcile` at the terminal short-circuit. -/
lemma reconcile_eq_terminal (c : Cluster) (s : SchedulerState) (d : Dag)
    (he : (syncStatus c s d).2.2 = none)
    (ht : (syncStatus c s d).1.status.state = some .completed ∨
      (syncStatus c s d).1.status.state = some .failed) :
    reconcile c s d = { dag := (syncStatus c s d).1, sched := (syncStatus c s d).2.1 } := by
  simp only [reconcile, he, if_pos ht]

/-- `Reconcile` when it reaches the launch loop. -/
lemma reconcile_eq_launch (c : Cluster) (s : SchedulerState) (d : Dag)
    (he : (syncStatus c s d).2.2 = none)
    (ht : ¬((syncStatus c s d).1.status.state = some .completed ∨
      (syncStatus c s d).1.status.state = some .failed)) :
    reconcile c s d =
      launchLoop c (schedule (syncStatus c s d).2.1 (syncStatus c s d).1).1
        (syncStatus c s d).1 (syncStatus c s d).2.1 [] := by
  simp only [reconcile, he, if_neg ht, schedule_snd]

/-! ## Claim theorems -/

/-- **C3.** `Schedule(workflow)` returns exactly the first `slots`
candidates — the tasks with no status record whose every dependency is
recorded Completed, in declared (FIFO-identity) order — where
`slots = maxActiveTasks − #{records Pending or Running}`, and the empty
list whenever `slots ≤ 0`; the returned error is always nil. -/
theorem scheduler_schedule_matches_spec (s : SchedulerState) (d : Dag) :
    schedule s d =
      (if specSlots s d ≤ 0 then [] else (specCandidates d).take (specSlots s d).toNat,
        none) := by
  simp only [schedule]
  rw [sortByPolicy_eq, specCandidates_eq, specActiveCount_eq]
  by_cases h : s.config.maxActiveTasks - (specActiveCount d : Int) ≤ 0
  · rw [if_pos h, if_pos (show specSlots s d ≤ 0 from h)]
  · rw [if_neg h, if_neg (show ¬ specSlots s d ≤ 0 from h)]
    rfl

/-- **C8.** The result of `Schedule` depends only on the workflow and the
configuration, never on the internal active-task counters: any sequence of
`NotifyTaskStarted`/`NotifyTaskCompleted` calls leaves `Schedule`'s answer
on every workflow unchanged. -/
theorem schedule_independent_of_counters (s : SchedulerState) (ops : List NotifyOp)
    (d : Dag) : schedule (applyNotifies s ops) d = schedule s d :=
  schedule_congr_config _ _ d (applyNotifies_config s ops)

/-- **C9.** `DefaultScheduler.Schedule` and `DefaultScheduler.CanSchedule`
never return a non-nil error: the error component of both results is nil on
every input. -/
theorem scheduler_never_errors (s : SchedulerState) (d : Dag) (t : TaskInfo) :
    (schedule s d).2 = none ∧ (canSchedule s t).2 = none :=
  ⟨schedule_snd s d, canSchedule_snd s t⟩

/-- **C6.** `pod.Executor.Execute` is idempotent at the creation boundary:
when the pod named `workflow-task` already exists, `Execute` returns
success (and creates nothing); it returns an error only when the creation
fails for a reason other than the pod already existing. -/
theorem pod_execute_idempotent (c : Cluster) (d : Dag) (t : TaskSpec) :
    (c.createResult (getPodName d.name t.name) = .alreadyExists →
      (podExecute c d t).1 = .ok () ∧ (podExecute c d t).2 = []) ∧
    (∀ e, (podExecute c d t).1 = .error e →
      c.createResult (getPodName d.name t.name) = .errOther) := by
  constructor
  · intro h
    simp [podExecute, buildPod_name, h]
  · intro e he
    rcases hcr : c.createResult (getPodName d.name t.name) with _ | _ | _ <;>
      simp only [podExecute, buildPod_name, hcr] at he ⊢
    · exact absurd he (by simp)
    · exact absurd he (by simp)

/-- Witness for C6: with the pod `w-a` already existing, `Execute` succeeds
and creates nothing. -/
theorem pod_execute_idempotent_witness :
    (podExecute clusterC6 dagC6 taskC6).1 = .ok () ∧
      (podExecute clusterC6 dagC6 taskC6).2 = [] :=
  (pod_execute_idempotent clusterC6 dagC6 taskC6).1 rfl

/-- Counterexample to C7 as stated: the pod the built-in executor builds
for a task with no user-supplied env has no environment variable at all —
in particular none named `WF_TASK_NAME` (nor `NAUTIKUS_TASK_NAME`): the
executor injects nothing beyond `task.env`. -/
theorem buildPod_no_injected_task_name :
    ¬ ∃ e ∈ (buildPod dagC7 taskC7).container.env, e.name = "WF_TASK_NAME" := by
  decide

/-- **C7 (amended).** The container environment of a built pod consists of
exactly the user-supplied `task.env` entries: a (name, value) variable is
present iff the pair is in `task.env`; no `WF_TASK_NAME` (or any other)
variable is injected by the executor.  (Task-name metadata reaches a
container only when the SDK manifest generator has placed
`NAUTIKUS_TASK_NAME` into `task.env` itself.) -/
theorem buildPod_env_exactly_user (d : Dag) (t : TaskSpec) (k v : String) :
    (EnvVar.mk k v ∈ (buildPod d t).container.env) ↔ (k, v) ∈ t.env := by
  simp only [buildPod, buildEnv, List.mem_map, EnvVar.mk.injEq]
  constructor
  · rintro ⟨x, hx, h1, h2⟩
    rw [← Prod.mk.eta (p := x), h1, h2] at hx
    exact hx
  · intro h
    exact ⟨(k, v), h, rfl, rfl⟩

/-- **C10.** In the reconciler's observation fallback (the runner's
`GetStatus` errored and the pod was then found by direct lookup), every pod
phase other than Succeeded and Failed — including a pod still Pending — is
recorded as Running; whereas on the primary executor path a pending or
absent pod is recorded as Pending. -/
theorem observe_fallback_vs_primary :
    (∀ (c : Cluster) (dagName : String) (t : TaskSpec) (a : SyncAcc) (cur : TaskStatus)
        (e : String) (p : PodPhase),
      findL t.name a.sts = some cur →
      cur.state ≠ .completed → cur.state ≠ .failed →
      runnerGetStatus c dagName t = .error e →
      c.directGet cur.podName = .found p →
      p ≠ .succeeded → p ≠ .failed →
      findL t.name ((syncTask c dagName t a).1).sts = some (setState .running cur)) ∧
    (∀ (c : Cluster) (dagName : String) (t : TaskSpec) (a : SyncAcc) (cur : TaskStatus),
      findL t.name a.sts = some cur →
      cur.state ≠ .completed → cur.state ≠ .failed →
      c.registered t.type = true →
      (c.execGet (getPodName dagName t.name) = .notFound ∨
        c.execGet (getPodName dagName t.name) = .found .pending) →
      findL t.name ((syncTask c dagName t a).1).sts = some (setState .pending cur)) := by
  constructor
  · intro c dagName t a cur e p hfind hnc hnf hrun hdir hps hpf
    have hnt : ¬(cur.state = .completed ∨ cur.state = .failed) := by tauto
    simp only [syncTask, hfind, hrun, hdir, if_neg hnt]
    cases p with
    | succeeded => exact absurd rfl hps
    | failed => exact absurd rfl hpf
    | pending => exact findL_updLast t.name _ (setState_name .running) a.sts cur hfind
    | running => exact findL_updLast t.name _ (setState_name .running) a.sts cur hfind
    | unknown => exact findL_updLast t.name _ (setState_name .running) a.sts cur hfind
  · intro c dagName t a cur hfind hnc hnf hreg hget
    have hnt : ¬(cur.state = .completed ∨ cur.state = .failed) := by tauto
    have hrun : runnerGetStatus c dagName t = .ok .pending := by
      unfold runnerGetStatus podGetStatus
      rw [hreg]
      rcases hget with hget | hget <;> rw [hget] <;> rfl
    simp only [syncTask, hfind, hrun, if_neg hnt]
    by_cases hcs : cur.state = TaskState.pending
    · rw [if_pos hcs, setState_eq_self .pending cur hcs]
      exact hfind
    · rw [if_neg hcs]
      exact findL_updLast t.name _ (setState_name .pending) a.sts cur hfind

/-- Witness for C10: a Pending pod reached through the fallback is recorded
Running, while an absent pod on the primary path is recorded Pending. -/
theorem observe_fallback_vs_primary_witness :
    findL "a" ((syncTask clusterC10a "w" taskC10 accC10a).1).sts =
        some { name := "a", state := .running, podName := "w-a" } ∧
      findL "a" ((syncTask clusterC10b "w" taskC10 accC10b).1).sts =
        some { name := "a", state := .pending, podName := "w-a" } :=
  ⟨observe_fallback_vs_primary.1 clusterC10a "w" taskC10 accC10a
      { name := "a", state := .pending, podName := "w-a" }
      "no executor found for task type Bash" .pending rfl (by decide) (by decide) rfl rfl
      (by decide) (by decide),
    observe_fallback_vs_primary.2 clusterC10b "w" taskC10 accC10b
      { name := "a", state := .running, podName := "w-a" }
      rfl (by decide) (by decide) (by decide) (Or.inl rfl)⟩

/-- **C4.** Once the aggregate state is terminal, reconciliation never
changes it.  A Failed aggregate needs no side condition; a Completed one is
accompanied by the reachability invariant that `updateDAGState` established
when it set Completed: every record is Completed. -/
theorem reconcile_terminal_aggregate_monotonic (c : Cluster) (s : SchedulerState) (d : Dag)
    (h : d.status.state = some .failed ∨
      (d.status.state = some .completed ∧
        ∀ r ∈ d.status.taskStatuses, r.state = .completed)) :
    (reconcile c s d).dag.status.state = d.status.state := by
  rcases h with hf | ⟨hc, hall⟩
  · have hacc : (syncAcc0 s d).st = some .failed := by simp [syncAcc0, hf]
    have hsl : ((syncLoop c d.name d.spec (syncAcc0 s d)).1).st = some .failed :=
      syncLoop_st_failed c d.name d.spec _ hacc
    have hstate : (syncStatus c s d).1.status.state = some .failed := by
      rw [syncStatus_fst_state]; exact hsl
    rcases he : (syncStatus c s d).2.2 with _ | e
    · rw [reconcile_eq_terminal c s d he (Or.inr hstate)]
      dsimp only
      rw [hstate, hf]
    · rw [reconcile_eq_err c s d e he]
      dsimp only
      rw [hstate, hf]
  · have hacc : (syncAcc0 s d).st = some .completed := by simp [syncAcc0, hc]
    have hskip : syncLoop c d.name d.spec (syncAcc0 s d) = (syncAcc0 s d, none) :=
      syncLoop_skip c d.name d.spec _ (fun r hr => hall r hr)
    have hstate : (syncStatus c s d).1.status.state = some .completed := by
      rw [syncStatus_fst_state, hskip]; exact hacc
    have he : (syncStatus c s d).2.2 = none := by
      rw [syncStatus_snd_err, hskip]
    rw [reconcile_eq_terminal c s d he (Or.inl hstate)]
    dsimp only
    rw [hstate, hc]

/-- Witness for C4: a Failed workflow stays Failed through a tick. -/
theorem reconcile_terminal_aggregate_monotonic_witness :
    (reconcile clusterC4 newDefaultScheduler dagC4).dag.status.state =
      dagC4.status.state :=
  reconcile_terminal_aggregate_monotonic clusterC4 newDefaultScheduler dagC4 (Or.inl rfl)

/-- Counterexample to C5 as stated: a task recorded Running whose pod has
disappeared is recorded Pending by the next observation (the executor maps
a missing pod to Pending) — the recorded sequence (Running, Pending)
regresses, so it is not a prefix of (Pending, Running, Completed/Failed). -/
theorem reconcile_running_regresses_to_pending :
    dagC5.status.taskStatuses.map (fun r => r.state) = [.running] ∧
      (reconcile clusterC5 newDefaultScheduler dagC5).dag.status.taskStatuses.map
        (fun r => r.state) = [.pending] := by
  constructor
  · rfl
  · decide

/-- **C5 (amended).** Across one reconciliation every pre-existing status
record keeps its name and position, and a record in Completed or Failed is
never modified (terminal states are sticky); however a record may regress
from Running back to Pending when the executor observes its pod missing (or
not yet scheduled), so the full (Pending, Running, terminal) prefix
discipline holds only while the pod, once created, persists until
terminal. -/
theorem reconcile_records_terminal_fixed (c : Cluster) (s : SchedulerState) (d : Dag) :
    List.Forall₂ recordStep d.status.taskStatuses
      (((reconcile c s d).dag.status.taskStatuses).take d.status.taskStatuses.length) := by
  have hsync : List.Forall₂ recordStep d.status.taskStatuses
      ((syncStatus c s d).1.status.taskStatuses) := by
    rw [syncStatus_fst_sts]
    exact syncLoop_recordStep c d.name d.spec (syncAcc0 s d)
  have hlen : d.status.taskStatuses.length =
      ((syncStatus c s d).1.status.taskStatuses).length := hsync.length_eq
  rcases he : (syncStatus c s d).2.2 with _ | e
  · by_cases ht : (syncStatus c s d).1.status.state = some .completed ∨
        (syncStatus c s d).1.status.state = some .failed
    · rw [reconcile_eq_terminal c s d he ht]
      dsimp only
      rw [hlen, List.take_length]
      exact hsync
    · rw [reconcile_eq_launch c s d he ht]
      have hnames : ∀ t ∈ (schedule (syncStatus c s d).2.1 (syncStatus c s d).1).1,
          ∀ r ∈ (syncStatus c s d).1.status.taskStatuses, r.name ≠ t.name :=
        fun t htm r hrm =>
          findL_none t.name _ (schedule_mem_no_record _ _ t htm) r hrm
      obtain ⟨extra₂, hex⟩ := launchLoop_statuses_prefix c
        (schedule (syncStatus c s d).2.1 (syncStatus c s d).1).1
        (syncStatus c s d).1 (syncStatus c s d).2.1 []
        ((syncStatus c s d).1.status.taskStatuses) [] (by rw [List.append_nil]) hnames
      rw [hex, hlen, List.take_left]
      exact hsync
  · rw [reconcile_eq_err c s d e he]
    dsimp only
    rw [hlen, List.take_length]
    exact hsync

/-- **C1 (amended).** When the first task the scheduler admits has a kind
with no registered executor, the reconciliation returns the registry-miss
error and creates no execution resource — but it also marks the admitted
task's record and the workflow aggregate Failed (and persists that), rather
than leaving the workflow Running to retry. -/
theorem reconcile_unknown_kind (c : Cluster) (s : SchedulerState) (d : Dag)
    (t : TaskSpec) (rest : List TaskSpec)
    (hsync : (syncStatus c s d).2.2 = none)
    (hnc : (syncStatus c s d).1.status.state ≠ some .completed)
    (hnf : (syncStatus c s d).1.status.state ≠ some .failed)
    (hsched : (schedule (syncStatus c s d).2.1 (syncStatus c s d).1).1 = t :: rest)
    (hreg : c.registered t.type = false) :
    (reconcile c s d).err = some ("no executor found for task type " ++ t.type) ∧
      (reconcile c s d).created = [] ∧
      (reconcile c s d).dag.status.state = some .failed := by
  have ht : ¬((syncStatus c s d).1.status.state = some .completed ∨
      (syncStatus c s d).1.status.state = some .failed) := not_or.mpr ⟨hnc, hnf⟩
  rw [reconcile_eq_launch c s d hsync ht, hsched]
  simp only [launchLoop, runnerRun, hreg]
  exact ⟨rfl, rfl, rfl⟩

/-- Counterexample to C1 as stated: on a fresh workflow declaring one task
of unregistered kind `BogusKind`, the tick does return an error and creates
no pod, but the aggregate does NOT stay Running: it is set (and persisted)
to Failed, so later ticks short-circuit instead of retrying. -/
theorem reconcile_unknown_kind_counterexample :
    (reconcile clusterC1 newDefaultScheduler dagC1).err.isSome = true ∧
      (reconcile clusterC1 newDefaultScheduler dagC1).created = [] ∧
      (reconcile clusterC1 newDefaultScheduler dagC1).dag.status.state ≠ some .running ∧
      (reconcile clusterC1 newDefaultScheduler dagC1).dag.status.state = some .failed ∧
      (reconcile clusterC1 newDefaultScheduler dagC1).persists =
        [{ state := some .failed,
           taskStatuses :=
             [{ name := "a", state := .failed, podName := "w-a", message := "no executor found for task type BogusKind" }] }] := by
  refine ⟨rfl, rfl, by decide, rfl, by decide⟩

/-- Witness for C1 (amended), at the `BogusKind` workflow. -/
theorem reconcile_unknown_kind_witness :
    (reconcile clusterC1 newDefaultScheduler dagC1).err =
        some ("no executor found for task type " ++ taskC1.type) ∧
      (reconcile clusterC1 newDefaultScheduler dagC1).created = [] ∧
      (reconcile clusterC1 newDefaultScheduler dagC1).dag.status.state = some .failed :=
  reconcile_unknown_kind clusterC1 newDefaultScheduler dagC1 taskC1 []
    rfl (by decide) (by decide) (by decide) rfl

/-- **C2.** Evidence of the divergence: a tick that observes the only
task's pod Failed sets the record and the aggregate to Failed and then hits
the terminal short-circuit — which returns WITHOUT persisting anything
(`persists = []`), although it does return without scheduling or launching
(`created = []`, no error).  The Failed state just computed is therefore
never written back at this exit. -/
theorem reconcile_short_circuit_skips_persist :
    (reconcile clusterC2 newDefaultScheduler dagC2).persists = [] ∧
      (reconcile clusterC2 newDefaultScheduler dagC2).created = [] ∧
      (reconcile clusterC2 newDefaultScheduler dagC2).err = none ∧
      (reconcile clusterC2 newDefaultScheduler dagC2).dag.status.state = some .failed ∧
      (reconcile clusterC2 newDefaultScheduler dagC2).dag.status.taskStatuses =
        [{ name := "a", state := .failed, podName := "w-a", message := "" }] := by
  refine ⟨rfl, rfl, rfl, rfl, by decide⟩

end Nautikus
